import Mathlib

/-!
Verification development for the dock-it container inspector.

The two cores under study are embedded shallowly:

* `internal/filter/filter.go` — the query-language filter engine
  (`ParseFilter`, `parseCriterion`, `parseDuration`, `parseBytes`, the
  four `Match*` entry points and their per-criterion dispatchers,
  `compareString`, `compareNumeric`).
* `internal/docker` (the docker client file) — the stats-enrichment
  engine (`ListContainers`, `getContainerStatsWithContext`, the
  `maxStatsWorkers` semaphore) and its record types.

Modelling conventions:

* Go `string` values are Lean `String`s; the claims only exercise ASCII
  inputs, where Go's byte indices and Lean's character indices agree.
* Go `float64` arithmetic is modelled exactly over `ℚ`; rounding of
  values beyond 2^53 is not modelled (no claim depends on it).
* Go `uint64` counters are `Nat`s reduced mod 2^64 where the code
  subtracts them (uint64 subtraction wraps).
* Go's `regexp.Regexp` is modelled by its match predicate
  `String → Bool`.  For `~`/`!~` the source compiles
  `"(?i)" + regexp.QuoteMeta(value)`, whose match semantics is exactly a
  case-insensitive literal-substring test and whose compilation never
  fails; that semantics is used directly.  For `=~` the compiler is an
  abstract parameter `compileRE`, so theorems hold for every behaviour
  of Go's `regexp.Compile`.
* Fallible Go functions returning `(T, error)` become `Except String T`
  (or `Option` where only the failure bit matters).
-/

set_option maxHeartbeats 1000000
set_option autoImplicit false

namespace Dockit

/-! ### Models of Go standard-library string and number primitives -/

/-- Model of Go `strings.Index` over character lists: the first position
at which `needle` occurs as a contiguous sub-list of `hay`. -/
def goIndexOf (hay needle : List Char) : Option Nat :=
  match hay with
  | [] => if needle = [] then some 0 else none
  | c :: t =>
    if needle.isPrefixOf (c :: t) then some 0
    else (goIndexOf t needle).map (· + 1)

/-- Model of Go `strings.Contains`. -/
def containsSub (hay needle : String) : Bool :=
  (goIndexOf hay.data needle.data).isSome

/-- Model of Go `strings.TrimSpace` (ASCII whitespace suffices for the
inputs under study). -/
def goTrim (s : String) : String :=
  String.mk (((s.data.dropWhile Char.isWhitespace).reverse.dropWhile
    Char.isWhitespace).reverse)

/-- Model of Go `strings.ToLower` (ASCII case mapping). -/
def goToLower (s : String) : String :=
  String.mk (s.data.map Char.toLower)

/-- Model of Go `strings.ToUpper` (ASCII case mapping). -/
def goToUpper (s : String) : String :=
  String.mk (s.data.map Char.toUpper)

/-- Model of Go `strings.HasSuffix`. -/
def goEndsWith (s tail : String) : Bool :=
  tail.data.isSuffixOf s.data

/-- Split at every occurrence of one separator character, keeping empty
pieces — the behaviour of Go `strings.Split(s, sep)` for a one-byte
separator. -/
def splitOnChar (sep : Char) : List Char → List (List Char)
  | [] => [[]]
  | c :: t =>
    if c = sep then [] :: splitOnChar sep t
    else
      match splitOnChar sep t with
      | h :: r => (c :: h) :: r
      | [] => [[c]]

/-- Go `strings.Split(s, ",")`. -/
def goSplitComma (s : String) : List String :=
  (splitOnChar ',' s.data).map String.mk

/-- Split at every whitespace character (pieces may be empty). -/
def splitWs : List Char → List (List Char)
  | [] => [[]]
  | c :: t =>
    if c.isWhitespace then [] :: splitWs t
    else
      match splitWs t with
      | h :: r => (c :: h) :: r
      | [] => [[c]]

/-- Numeric value of a list of decimal digit characters. -/
def digitsVal (cs : List Char) : Nat :=
  cs.foldl (fun a c => a * 10 + (c.toNat - 48)) 0

/-- `10 ^ e` over `ℚ` for a signed exponent. -/
def pow10 (e : Int) : ℚ :=
  if 0 ≤ e then (10 ^ e.toNat : ℚ) else 1 / (10 ^ (-e).toNat : ℚ)

/-- Exponent suffix of a decimal literal (`e`/`E`, optional sign,
digits); anything else after the mantissa rejects the literal. -/
def parseExpTail (t : List Char) : Option ℚ :=
  let p : Int × List Char :=
    match t with
    | '+' :: r => (1, r)
    | '-' :: r => (-1, r)
    | _ => (1, t)
  let ds := p.2.takeWhile Char.isDigit
  let rest := p.2.dropWhile Char.isDigit
  if ds = [] ∨ rest ≠ [] then none
  else some (pow10 (p.1 * (digitsVal ds : Int)))

/-- Dispatch on the character following the mantissa. -/
def parseExp : List Char → Option ℚ
  | [] => some 1
  | 'e' :: t => parseExpTail t
  | 'E' :: t => parseExpTail t
  | _ => none

/-- Model of Go `strconv.ParseFloat(s, 64)` restricted to decimal
notation (optional sign, digits with optional fraction, optional
exponent).  Go additionally accepts `inf`/`nan` and hexadecimal floats,
which no claim exercises.  The value is kept exactly as a rational. -/
def goParseFloat (s : String) : Option ℚ :=
  let p : ℚ × List Char :=
    match s.data with
    | '+' :: t => (1, t)
    | '-' :: t => (-1, t)
    | _ => (1, s.data)
  let ip := p.2.takeWhile Char.isDigit
  let cs1 := p.2.dropWhile Char.isDigit
  match cs1 with
  | '.' :: t =>
    let fp := t.takeWhile Char.isDigit
    let cs2 := t.dropWhile Char.isDigit
    if ip = [] ∧ fp = [] then none
    else
      (parseExp cs2).map fun e =>
        p.1 * ((digitsVal ip : ℚ) + (digitsVal fp : ℚ) / (10 ^ fp.length : ℚ)) * e
  | _ =>
    if ip = [] then none
    else (parseExp cs1).map fun e => p.1 * (digitsVal ip : ℚ) * e

/-- Model of Go `strconv.ParseInt(s, 10, 64)`: optional sign, decimal
digits, 64-bit signed range check. -/
def goParseInt (s : String) : Option Int :=
  let p : Int × List Char :=
    match s.data with
    | '+' :: t => (1, t)
    | '-' :: t => (-1, t)
    | _ => (1, s.data)
  if p.2 = [] ∨ ¬ p.2.all Char.isDigit then none
  else
    let v : Int := p.1 * (digitsVal p.2 : Int)
    if v < -(2 ^ 63) ∨ (2 ^ 63 : Int) - 1 < v then none else some v

/-- Truncation toward zero, the semantics of Go's `int64(f)` conversion
from a (here: exactly represented) `float64`. -/
def ratTrunc (q : ℚ) : Int :=
  if q < 0 then -(Rat.floor (-q)) else Rat.floor q

/-- Model of Go `strings.Fields`: whitespace-separated tokens. -/
def goFields (s : String) : List String :=
  ((splitWs s.data).map String.mk).filter (· ≠ "")

/-! ### `filter.go`: size parsing (`parseBytes`) -/

/-- The multiplier table of `parseBytes`, in the source's order
(longest suffix first). -/
def byteMultipliers : List (String × Int) :=
  [("TB", 1024 ^ 4), ("GB", 1024 ^ 3), ("MB", 1024 ^ 2), ("KB", 1024), ("B", 1)]

/-- The first table entry whose suffix matches, as in the source's
`for _, m := range multipliers` loop. -/
def findByteSuffix (s : String) : Option (String × Int) :=
  byteMultipliers.find? fun m => goEndsWith s m.1

/-- `s[:len(s)-n]` for an ASCII tail of `n` bytes. -/
def dropSuffixChars (s : String) (n : Nat) : String :=
  String.mk (s.data.take (s.data.length - n))

/-- Embedding of `parseBytes` (filter.go lines 220-254): trim and
upper-case, try the suffix table longest-first with a fractional
magnitude, otherwise fall back to a plain integer byte count. -/
def parseBytes (s : String) : Except String Int :=
  let t := goToUpper (goTrim s)
  if t = "" then .error "empty size"
  else
    match findByteSuffix t with
    | some m =>
      let valStr := goTrim (dropSuffixChars t m.1.length)
      match goParseFloat valStr with
      | some v => .ok (ratTrunc (v * (m.2 : ℚ)))
      | none => .error ("invalid number: " ++ valStr)
    | none =>
      match goParseInt t with
      | some v => .ok v
      | none => .error ("invalid size format: " ++ t)

/-! ### `filter.go`: duration parsing (`parseDuration`) -/

/-- Nanoseconds per hour (`time.Hour`). -/
def nsPerHour : Int := 3600 * 1000000000

/-- The unit table of Go `time.ParseDuration` (the `µs` spellings are
omitted; no claim exercises them).  Values are nanoseconds. -/
def durUnits : List (String × ℚ) :=
  [("ns", 1), ("us", 1000), ("ms", 1000000), ("s", 1000000000),
   ("m", 60 * 1000000000), ("h", 3600 * 1000000000)]

/-- Leading decimal magnitude of one duration segment. -/
def readDurNum (cs : List Char) : Option (ℚ × List Char) :=
  let ip := cs.takeWhile Char.isDigit
  let r1 := cs.dropWhile Char.isDigit
  match r1 with
  | '.' :: t =>
    let fp := t.takeWhile Char.isDigit
    let r2 := t.dropWhile Char.isDigit
    if ip = [] ∧ fp = [] then none
    else some ((digitsVal ip : ℚ) + (digitsVal fp : ℚ) / (10 ^ fp.length : ℚ), r2)
  | _ => if ip = [] then none else some ((digitsVal ip : ℚ), r1)

/-- Unit of one duration segment: the longest run of non-digit,
non-dot characters, looked up in the unit table. -/
def readDurUnit (cs : List Char) : Option (ℚ × List Char) :=
  let u := cs.takeWhile fun c => !c.isDigit && c != '.'
  let rest := cs.dropWhile fun c => !c.isDigit && c != '.'
  (durUnits.find? fun p => p.1.data = u).map fun p => (p.2, rest)

/-- Segment loop of `time.ParseDuration`; each iteration consumes at
least one character, so the input length bounds the iteration count. -/
def durLoop : Nat → List Char → Option ℚ
  | _, [] => some 0
  | 0, _ :: _ => none
  | fuel + 1, c :: t =>
    match readDurNum (c :: t) with
    | none => none
    | some (v, r1) =>
      match readDurUnit r1 with
      | none => none
      | some (u, r2) => (durLoop fuel r2).map (fun acc => v * u + acc)

/-- Model of Go `time.ParseDuration`: optional sign, then one or more
`<decimal><unit>` segments; a bare `"0"` is allowed.  Result in
nanoseconds. -/
def goParseDuration (s : String) : Except String Int :=
  let p : ℚ × List Char :=
    match s.data with
    | '-' :: t => (-1, t)
    | '+' :: t => (1, t)
    | _ => (1, s.data)
  if p.2 = ['0'] then .ok 0
  else if p.2 = [] then .error ("invalid duration " ++ s)
  else
    match durLoop p.2.length p.2 with
    | some q => .ok (ratTrunc (p.1 * q))
    | none => .error ("invalid duration " ++ s)

/-- Embedding of `parseDuration` (filter.go lines 179-217): custom
suffixes `d`, `w`, `mo`, `y` (checked in that order) scale an hour
count; other inputs go to the standard duration grammar. -/
def parseDuration (s : String) : Except String Int :=
  let t := goTrim s
  if t = "" then .error "empty duration"
  else if goEndsWith t "d" then
    match goParseFloat (dropSuffixChars t 1) with
    | some v => .ok (ratTrunc (v * 24 * (nsPerHour : ℚ)))
    | none => .error ("invalid number: " ++ dropSuffixChars t 1)
  else if goEndsWith t "w" then
    match goParseFloat (dropSuffixChars t 1) with
    | some v => .ok (ratTrunc (v * 7 * 24 * (nsPerHour : ℚ)))
    | none => .error ("invalid number: " ++ dropSuffixChars t 1)
  else if goEndsWith t "mo" then
    match goParseFloat (dropSuffixChars t 2) with
    | some v => .ok (ratTrunc (v * 30 * 24 * (nsPerHour : ℚ)))
    | none => .error ("invalid number: " ++ dropSuffixChars t 2)
  else if goEndsWith t "y" then
    match goParseFloat (dropSuffixChars t 1) with
    | some v => .ok (ratTrunc (v * 365 * 24 * (nsPerHour : ℚ)))
    | none => .error ("invalid number: " ++ dropSuffixChars t 1)
  else goParseDuration t

/-! ### `filter.go`: data model -/

def FilterAge : String := "age"
def FilterStatus : String := "status"
def FilterState : String := "state"
def FilterName : String := "name"
def FilterTag : String := "tag"
def FilterSize : String := "size"
def FilterDriver : String := "driver"
def FilterScope : String := "scope"

def OpEqual : String := "="
def OpNotEqual : String := "!="
def OpGreater : String := ">"
def OpLess : String := "<"
def OpGreaterEqual : String := ">="
def OpLessEqual : String := "<="
def OpContains : String := "~"
def OpNotContains : String := "!~"
def OpRegex : String := "=~"

/-- Embedding of `filter.Criterion`.  The Go field `Type` is renamed
`Typ` (`Type` is a Lean keyword); `Regex` is the compiled pattern's
match predicate, `none` for a nil `*regexp.Regexp`. -/
structure Criterion where
  Typ : String
  Op : String
  Value : String
  Duration : Int
  Bytes : Int
  Regex : Option (String → Bool)

/-- Embedding of `filter.Filter`. -/
structure Filter where
  Criteria : List Criterion
  SearchTerm : String

/-- Embedding of `filter.New`. -/
def Filter.New : Filter := { Criteria := [], SearchTerm := "" }

/-! ### `filter.go`: criterion and filter parsing -/

/-- The operator probe order of `parseCriterion` (longest first). -/
def operatorsList : List String :=
  [">=", "<=", "!=", "!~", "=~", "=", ">", "<", "~"]

/-- The operator-search loop of `parseCriterion`: the first operator in
probe order whose first occurrence is at a position greater than zero,
together with that position. -/
def findOperator (input : String) : Option (String × Nat) :=
  operatorsList.findSome? fun op =>
    match goIndexOf input.data op.data with
    | some idx => if idx > 0 then some (op, idx) else none
    | none => none

/-- Match semantics of the pattern `"(?i)" + regexp.QuoteMeta(value)`
compiled for the `~` and `!~` operators: a case-insensitive literal
substring test.  (Quoting makes the pattern metacharacter-free, so
compilation cannot fail.) -/
def ciLiteralMatch (v : String) : String → Bool :=
  fun actual => containsSub (goToLower actual) (goToLower v)

/-- Embedding of `parseCriterion` (filter.go lines 111-176),
parameterized by the behaviour `compileRE` of `regexp.Compile` on the
raw `=~` pattern. -/
def parseCriterion (compileRE : String → Except String (String → Bool))
    (input : String) : Except String Criterion :=
  match findOperator input with
  | none => .error ("no valid operator found in: " ++ input)
  | some (op, splitIdx) =>
    let filterType := goTrim (String.mk (input.data.take splitIdx))
    let value := goTrim (String.mk (input.data.drop (splitIdx + op.length)))
    if filterType = "" ∨ value = "" then
      .error ("invalid filter format: " ++ input)
    else
      let c0 : Criterion :=
        { Typ := filterType, Op := op, Value := value,
          Duration := 0, Bytes := 0, Regex := none }
      let step1 : Except String Criterion :=
        if filterType = FilterAge then
          match parseDuration value with
          | .ok d => .ok { c0 with Duration := d }
          | .error e => .error ("parse age duration: " ++ e)
        else if filterType = FilterSize then
          match parseBytes value with
          | .ok b => .ok { c0 with Bytes := b }
          | .error e => .error ("parse size: " ++ e)
        else .ok c0
      match step1 with
      | .error e => .error e
      | .ok c1 =>
        if op = OpRegex ∨ op = OpContains ∨ op = OpNotContains then
          if op = OpContains ∨ op = OpNotContains then
            .ok { c1 with Regex := some (ciLiteralMatch value) }
          else
            match compileRE value with
            | .ok m => .ok { c1 with Regex := some m }
            | .error e => .error ("compile regex: " ++ e)
        else .ok c1

/-- The `strings.ContainsAny(input, "=><~")` test of `ParseFilter`. -/
def hasOperators (s : String) : Bool :=
  s.data.any fun c => c == '=' || c == '>' || c == '<' || c == '~'

/-- The clause loop of `ParseFilter`: blank clauses are skipped, the
first failing clause aborts with an error naming it, successful
criteria are appended in order. -/
def parseParts (compileRE : String → Except String (String → Bool)) :
    List String → Filter → Except String Filter
  | [], f => .ok f
  | p :: rest, f =>
    let q := goTrim p
    if q = "" then parseParts compileRE rest f
    else
      match parseCriterion compileRE q with
      | .error e => .error ("parse criterion \x27" ++ q ++ "\x27: " ++ e)
      | .ok c => parseParts compileRE rest { f with Criteria := f.Criteria ++ [c] }

/-- Embedding of `ParseFilter` (filter.go lines 76-109). -/
def ParseFilter (compileRE : String → Except String (String → Bool))
    (input : String) : Except String Filter :=
  let t := goTrim input
  if t = "" then .ok Filter.New
  else if hasOperators t then parseParts compileRE (goSplitComma t) Filter.New
  else .ok { Filter.New with SearchTerm := goToLower t }

/-! ### `internal/docker`: record types

Timestamps (`time.Time`) are nanoseconds since the Unix epoch, with the
zero `time.Time` modelled as `0`; `time.Since(t)` is `now - t` for the
ambient clock value `now` threaded explicitly. -/

/-- Embedding of `docker.ContainerInfo`.  The Go field `NetIO` is
spelled `NetIo` here. -/
structure ContainerInfo where
  ID : String
  Name : String
  Image : String
  Status : String
  State : String
  Ports : String
  Age : String
  Created : Int
  CPU : String
  Memory : String
  NetIo : String

/-- Embedding of `docker.ImageInfo`. -/
structure ImageInfo where
  ID : String
  Tag : String
  Size : String
  Age : String
  Created : Int

/-- Embedding of `docker.NetworkInfo`. -/
structure NetworkInfo where
  ID : String
  Name : String
  Driver : String
  Scope : String
  Age : String
  Created : Int

/-- Embedding of `docker.VolumeInfo`. -/
structure VolumeInfo where
  Name : String
  Driver : String
  Mountpoint : String
  Age : String
  Created : Int

/-- Embedding of `docker.ContainerStats` (Go field `NetIO`). -/
structure ContainerStats where
  CPU : String
  Memory : String
  NetIo : String

/-! ### `filter.go`: matching -/

/-- Embedding of `compareString` (filter.go lines 410-425);
`strings.EqualFold` is modelled as equality of lower-casings. -/
def compareString (actual : String) (op : String) (expected : String)
    (regex : Option (String → Bool)) : Bool :=
  if op = OpEqual then goToLower actual == goToLower expected
  else if op = OpNotEqual then !(goToLower actual == goToLower expected)
  else if op = OpContains then
    match regex with
    | some m => m actual
    | none => false
  else if op = OpNotContains then
    match regex with
    | some m => !(m actual)
    | none => true
  else if op = OpRegex then
    match regex with
    | some m => m actual
    | none => false
  else false

/-- Embedding of `compareNumeric` (filter.go lines 427-444). -/
def compareNumeric (actual : ℚ) (op : String) (expected : ℚ) : Bool :=
  if op = OpEqual then decide (actual = expected)
  else if op = OpNotEqual then decide (actual ≠ expected)
  else if op = OpGreater then decide (expected < actual)
  else if op = OpLess then decide (actual < expected)
  else if op = OpGreaterEqual then decide (expected ≤ actual)
  else if op = OpLessEqual then decide (actual ≤ expected)
  else false

/-- Embedding of `matchContainerCriterion` (filter.go lines 277-291). -/
def matchContainerCriterion (now : Int) (c : ContainerInfo)
    (criterion : Criterion) : Bool :=
  if criterion.Typ = FilterAge then
    compareNumeric ((now - c.Created : Int) : ℚ) criterion.Op (criterion.Duration : ℚ)
  else if criterion.Typ = FilterStatus then
    compareString c.Status criterion.Op criterion.Value criterion.Regex
  else if criterion.Typ = FilterState then
    compareString c.State criterion.Op criterion.Value criterion.Regex
  else if criterion.Typ = FilterName then
    compareString c.Name criterion.Op criterion.Value criterion.Regex
  else true

/-- Embedding of `Filter.MatchContainer` (filter.go lines 257-275). -/
def MatchContainer (f : Filter) (now : Int) (c : ContainerInfo) : Bool :=
  if f.SearchTerm ≠ "" then
    containsSub (goToLower c.Name) f.SearchTerm ||
    containsSub (goToLower c.Image) f.SearchTerm ||
    containsSub (goToLower c.Status) f.SearchTerm ||
    containsSub (goToLower c.State) f.SearchTerm ||
    containsSub (goToLower c.ID) f.SearchTerm
  else f.Criteria.all fun criterion => matchContainerCriterion now c criterion

/-- Embedding of `matchImageCriterion` (filter.go lines 312-333). -/
def matchImageCriterion (now : Int) (img : ImageInfo)
    (criterion : Criterion) : Bool :=
  if criterion.Typ = FilterAge then
    compareNumeric ((now - img.Created : Int) : ℚ) criterion.Op (criterion.Duration : ℚ)
  else if criterion.Typ = FilterName ∨ criterion.Typ = FilterTag then
    compareString img.Tag criterion.Op criterion.Value criterion.Regex
  else if criterion.Typ = FilterSize then
    match goFields img.Size with
    | tok :: _ =>
      match goParseFloat tok with
      | some val =>
        compareNumeric ((ratTrunc (val * (1024 * 1024 : ℚ)) : ℚ))
          criterion.Op (criterion.Bytes : ℚ)
      | none => true
    | [] => true
  else true

/-- Embedding of `Filter.MatchImage` (filter.go lines 294-310). -/
def MatchImage (f : Filter) (now : Int) (img : ImageInfo) : Bool :=
  if f.SearchTerm ≠ "" then
    containsSub (goToLower img.Tag) f.SearchTerm ||
    containsSub (goToLower img.ID) f.SearchTerm ||
    containsSub (goToLower img.Size) f.SearchTerm
  else f.Criteria.all fun criterion => matchImageCriterion now img criterion

/-- Embedding of `matchNetworkCriterion` (filter.go lines 355-372). -/
def matchNetworkCriterion (now : Int) (net : NetworkInfo)
    (criterion : Criterion) : Bool :=
  if criterion.Typ = FilterAge then
    if net.Created ≠ 0 then
      compareNumeric ((now - net.Created : Int) : ℚ) criterion.Op (criterion.Duration : ℚ)
    else true
  else if criterion.Typ = FilterName then
    compareString net.Name criterion.Op criterion.Value criterion.Regex
  else if criterion.Typ = FilterDriver then
    compareString net.Driver criterion.Op criterion.Value criterion.Regex
  else if criterion.Typ = FilterScope then
    compareString net.Scope criterion.Op criterion.Value criterion.Regex
  else true

/-- Embedding of `Filter.MatchNetwork` (filter.go lines 336-353). -/
def MatchNetwork (f : Filter) (now : Int) (net : NetworkInfo) : Bool :=
  if f.SearchTerm ≠ "" then
    containsSub (goToLower net.Name) f.SearchTerm ||
    containsSub (goToLower net.ID) f.SearchTerm ||
    containsSub (goToLower net.Driver) f.SearchTerm ||
    containsSub (goToLower net.Scope) f.SearchTerm
  else f.Criteria.all fun criterion => matchNetworkCriterion now net criterion

/-- Embedding of `matchVolumeCriterion` (filter.go lines 393-408). -/
def matchVolumeCriterion (now : Int) (vol : VolumeInfo)
    (criterion : Criterion) : Bool :=
  if criterion.Typ = FilterAge then
    if vol.Created ≠ 0 then
      compareNumeric ((now - vol.Created : Int) : ℚ) criterion.Op (criterion.Duration : ℚ)
    else true
  else if criterion.Typ = FilterName then
    compareString vol.Name criterion.Op criterion.Value criterion.Regex
  else if criterion.Typ = FilterDriver then
    compareString vol.Driver criterion.Op criterion.Value criterion.Regex
  else true

/-- Embedding of `Filter.MatchVolume` (filter.go lines 375-391). -/
def MatchVolume (f : Filter) (now : Int) (vol : VolumeInfo) : Bool :=
  if f.SearchTerm ≠ "" then
    containsSub (goToLower vol.Name) f.SearchTerm ||
    containsSub (goToLower vol.Driver) f.SearchTerm ||
    containsSub (goToLower vol.Mountpoint) f.SearchTerm
  else f.Criteria.all fun criterion => matchVolumeCriterion now vol criterion

/-! ### `ui.go`: applying a parsed filter -/

/-- The slice of UI state that `applyFilter` touches: the active filter
and the status-bar text. -/
structure UIState where
  filter : Filter
  statusText : String

/-- Embedding of `(*UI).applyFilter` (log_format.go lines 508-520):
`filterText` is the text read from the filter input widget; on a parse
error only the status bar changes, on success the active filter is
replaced.  (The success path additionally hides the input widget and
reloads the current view — presentation effects outside this model.) -/
def applyFilter (compileRE : String → Except String (String → Bool))
    (filterText : String) (u : UIState) : UIState :=
  match ParseFilter compileRE filterText with
  | .error e => { u with statusText := "Filter error: " ++ e }
  | .ok f => { u with filter := f }

/-! ### `internal/docker`: the decoded stats payload and its numeric core

`container.StatsResponse` fields are `uint64` counters; they are
modelled as `Nat`s and reduced mod 2^64 where the code subtracts them.
The Go `Networks` map is modelled as the list of its values (the code
only sums over them). -/

structure CPUUsage where
  totalUsage : Nat
  percpuUsage : List Nat

structure CPUStats where
  cpuUsage : CPUUsage
  systemUsage : Nat
  onlineCPUs : Nat

structure MemStats where
  usage : Nat
  limit : Nat

structure NetStats where
  rxBytes : Nat
  txBytes : Nat

structure StatsResponse where
  cpuStats : CPUStats
  preCpuStats : CPUStats
  memoryStats : MemStats
  networks : List NetStats

def u64Mod : Nat := 2 ^ 64

/-- Go `uint64` subtraction `a - b` (wraps modulo 2^64). -/
def sub64 (a b : Nat) : Nat :=
  (u64Mod + a % u64Mod - b % u64Mod) % u64Mod

/-- The four numbers computed by `getContainerStatsWithContext`. -/
structure StatsNumbers where
  cpuPercent : ℚ
  memPercent : ℚ
  rxBytes : ℚ
  txBytes : ℚ

/-- Embedding of the numeric core of `getContainerStatsWithContext`
(docker client, lines 214-238), statement by statement; `float64`
arithmetic is exact here (`ℚ`). -/
def getContainerStatsCore (payload : StatsResponse) : StatsNumbers :=
  let cpuDelta : ℚ :=
    (sub64 payload.cpuStats.cpuUsage.totalUsage payload.preCpuStats.cpuUsage.totalUsage : ℚ)
  let systemDelta : ℚ :=
    (sub64 payload.cpuStats.systemUsage payload.preCpuStats.systemUsage : ℚ)
  let onlineCPUs0 : ℚ := (payload.cpuStats.onlineCPUs : ℚ)
  let onlineCPUs : ℚ :=
    if onlineCPUs0 = 0 ∧ payload.cpuStats.cpuUsage.percpuUsage.length > 0 then
      (payload.cpuStats.cpuUsage.percpuUsage.length : ℚ)
    else onlineCPUs0
  let cpuPercent : ℚ :=
    if 0 < cpuDelta ∧ 0 < systemDelta ∧ 0 < onlineCPUs then
      cpuDelta / systemDelta * onlineCPUs * 100
    else 0
  let memUsage : ℚ := (payload.memoryStats.usage : ℚ)
  let memLimit : ℚ := (payload.memoryStats.limit : ℚ)
  let memPercent : ℚ := if 0 < memLimit then memUsage / memLimit * 100 else 0
  let rx : ℚ := payload.networks.foldl (fun a n => a + (n.rxBytes : ℚ)) 0
  let tx : ℚ := payload.networks.foldl (fun a n => a + (n.txBytes : ℚ)) 0
  ⟨cpuPercent, memPercent, rx, tx⟩

/-! ### `internal/docker`: `ListContainers`

The Docker API collaborators are abstracted exactly at the two call
sites: the `ContainerList` result is passed in as an `Except` (its
failure is returned unchanged), and the per-container stats fetch is an
oracle `fetch : String → Option ContainerStats` — `none` is any failure
of the fetch goroutine's `getContainerStatsWithContext` call under its
2-second context (timeout, transport failure, decode failure).

Each fetch goroutine owns the single slice index computed before
fan-out and `wg.Wait` orders every write before the return, so the
final value of `result` equals this sequential application of the
successful writes; the interleaving itself is modelled by `PoolStep`
below. -/

structure RawPort where
  publicPort : Nat
  privatePort : Nat

/-- The fields of the Docker SDK's container summary that
`ListContainers` reads; `created` is Unix seconds. -/
structure RawContainer where
  id : String
  names : List String
  image : String
  status : String
  state : String
  ports : List RawPort
  created : Int

def nsPerSecond : Int := 1000000000

def nsPerMinute : Int := 60 * nsPerSecond

/-- `strings.TrimPrefix(name, "/")` as used on container names. -/
def trimSlash (s : String) : String :=
  match s.data with
  | '/' :: t => String.mk t
  | _ => s

/-- The unit table of `formatRelativeDuration`, in source order. -/
def relUnits : List (Int × String) :=
  [(24 * 365 * nsPerHour, "y"), (24 * 30 * nsPerHour, "mo"),
   (24 * 7 * nsPerHour, "w"), (24 * nsPerHour, "d"),
   (nsPerHour, "h"), (nsPerMinute, "m")]

/-- Embedding of `formatRelativeDuration` (docker client, lines
493-521); durations are `Int` nanoseconds. -/
def formatRelativeDuration (d0 : Int) : String :=
  let d := if d0 < 0 then -d0 else d0
  if d < nsPerMinute then "just now"
  else
    match relUnits.find? fun u => decide (u.1 ≤ d) with
    | some u => toString ((d / u.1).toNat) ++ u.2 ++ " ago"
    | none => "just now"

/-- The port-string construction of `ListContainers` (lines 129-140). -/
def buildPorts (ports : List RawPort) : String :=
  let portList := ports.filterMap fun p =>
    if p.publicPort > 0 then
      some (toString p.publicPort ++ "->" ++ toString p.privatePort)
    else none
  if portList = [] then "-" else String.intercalate ", " portList

/-- The `ContainerInfo` built for one listed container (lines 123-157):
metrics start at the `"-"` sentinel. -/
def buildInfo (now : Int) (ctr : RawContainer) : ContainerInfo :=
  let name := match ctr.names with
    | [] => "<none>"
    | n :: _ => trimSlash n
  let createdTime := ctr.created * nsPerSecond
  { ID := ctr.id, Name := name, Image := ctr.image, Status := ctr.status,
    State := ctr.state, Ports := buildPorts ctr.ports,
    Age := formatRelativeDuration (now - createdTime),
    Created := createdTime, CPU := "-", Memory := "-", NetIo := "-" }

/-- The `(ID, index)` pairs inserted into `runningContainers`, in loop
order, starting at index `i`. -/
def runEntries : Nat → List RawContainer → List (String × Nat)
  | _, [] => []
  | i, c :: rest =>
    if c.state = "running" then (c.id, i) :: runEntries (i + 1) rest
    else runEntries (i + 1) rest

/-- Go map insertion `m[k] = v` on an association list. -/
def mapInsert : List (String × Nat) → String → Nat → List (String × Nat)
  | [], k, v => [(k, v)]
  | e :: rest, k, v => if e.1 = k then (k, v) :: rest else e :: mapInsert rest k v

/-- The `runningContainers` map after the listing loop. -/
def buildRunningMap (cs : List RawContainer) : List (String × Nat) :=
  (runEntries 0 cs).foldl (fun m e => mapInsert m e.1 e.2) []

/-- The write a fetch goroutine performs on success (lines 183-185). -/
def withStats (c : ContainerInfo) (st : ContainerStats) : ContainerInfo :=
  { c with CPU := st.CPU, Memory := st.Memory, NetIo := st.NetIo }

/-- `result[index] = stats fields` at one index (no-op out of range). -/
def setStats : List ContainerInfo → Nat → ContainerStats → List ContainerInfo
  | [], _, _ => []
  | c :: rest, 0, st => withStats c st :: rest
  | c :: rest, i + 1, st => c :: setStats rest i st

/-- The combined effect on `result` of all fetch goroutines: a failed
fetch writes nothing, a successful one fills its own index. -/
def applyStats (fetch : String → Option ContainerStats) :
    List (String × Nat) → List ContainerInfo → List ContainerInfo
  | [], acc => acc
  | e :: rest, acc =>
    match fetch e.1 with
    | some st => applyStats fetch rest (setStats acc e.2 st)
    | none => applyStats fetch rest acc

/-- `ListContainers` after a successful `ContainerList` call. -/
def listContainersPure (now : Int) (cs : List RawContainer)
    (fetch : String → Option ContainerStats) : List ContainerInfo :=
  applyStats fetch (buildRunningMap cs) (cs.map (buildInfo now))

/-- Embedding of `ListContainers` (docker client, lines 111-195). -/
def ListContainers (now : Int) (listResult : Except String (List RawContainer))
    (fetch : String → Option ContainerStats) : Except String (List ContainerInfo) :=
  match listResult with
  | .error e => .error e
  | .ok cs => .ok (listContainersPure now cs fetch)

/-! ### `internal/docker`: the stats worker pool

One fetch goroutine per running container (lines 165-192).  A
goroutine is `waiting` before its `sem <- struct{}{}` send completes,
`fetching` while it holds a slot of the capacity-`maxStatsWorkers`
buffered channel (the stats fetch happens there), and `finished` after
the deferred `<-sem`.  A send on the buffered channel can complete
exactly when fewer than `maxStatsWorkers` slots are held — the
`hsem` guard of `acquire`. -/

def maxStatsWorkers : Nat := 4

inductive WorkerPhase where
  | waiting
  | fetching
  | finished
  deriving DecidableEq

/-- Number of fetches in flight: goroutines holding a semaphore slot. -/
def countFetching (l : List WorkerPhase) : Nat :=
  l.countP fun w => w == WorkerPhase.fetching

/-- One scheduler step of the fetch pool. -/
inductive PoolStep : List WorkerPhase → List WorkerPhase → Prop where
  | acquire (s : List WorkerPhase) (i : Nat)
      (hw : s.get? i = some .waiting)
      (hsem : countFetching s < maxStatsWorkers) :
      PoolStep s (s.set i .fetching)
  | release (s : List WorkerPhase) (i : Nat)
      (hf : s.get? i = some .fetching) :
      PoolStep s (s.set i .finished)

/-- Reachability under pool steps. -/
inductive PoolReach : List WorkerPhase → List WorkerPhase → Prop where
  | refl (s : List WorkerPhase) : PoolReach s s
  | tail {s t u : List WorkerPhase} :
      PoolReach s t → PoolStep t u → PoolReach s u

/-- The pool's initial state: all `n` fetch goroutines dispatched, none
holding a slot. -/
def initPool (n : Nat) : List WorkerPhase :=
  List.replicate n .waiting

/-! ### Concrete inputs used by witnesses and instances -/

/-- A trivial stand-in behaviour for `regexp.Compile`, used where a
witness needs a concrete compiler. -/
def demoCompile : String → Except String (String → Bool) :=
  fun _ => .ok fun _ => false

/-- The sample of the spec's CPU test vector: `cpuDelta=200`,
`systemDelta=1000`, `onlineCpus=4`. -/
def sampleC2 : StatsResponse := ⟨⟨⟨200, []⟩, 1000, 4⟩, ⟨⟨0, []⟩, 0, 0⟩, ⟨0, 0⟩, []⟩

/-- Memory sample `usage=50, limit=100`. -/
def sampleC3 : StatsResponse := ⟨⟨⟨0, []⟩, 0, 0⟩, ⟨⟨0, []⟩, 0, 0⟩, ⟨50, 100⟩, []⟩

/-- Memory sample with `limit=0`. -/
def sampleC3zero : StatsResponse := ⟨⟨⟨0, []⟩, 0, 0⟩, ⟨⟨0, []⟩, 0, 0⟩, ⟨50, 0⟩, []⟩

def demoContainer : ContainerInfo :=
  ⟨"cid", "my-redis-container", "redis", "Up 2 hours", "running", "-",
   "2h ago", 0, "-", "-", "-"⟩

def demoImage : ImageInfo := ⟨"iid", "redis:latest", "100.50 MB", "2h ago", 0⟩

def demoImageBad : ImageInfo := ⟨"iid2", "dangling", "N/A", "-", 0⟩

def demoVolume : VolumeInfo := ⟨"vol1", "local", "/mnt/vol1", "-", 0⟩

def demoImageEmpty : ImageInfo := ⟨"iid3", "scratch", "", "-", 0⟩

def demoDriverCriterion : Criterion := ⟨"driver", "=", "bridge", 0, 0, none⟩

/-- `size>100MB` (100 MB = 104857600 bytes, as `parseBytes` yields). -/
def demoSizeCriterion : Criterion := ⟨"size", ">", "100MB", 0, 104857600, none⟩

def demoOrderCriterion : Criterion := ⟨"name", ">", "m", 0, 0, none⟩

def demoUI : UIState := ⟨Filter.New, ""⟩

/-- Two slots held out of five dispatched goroutines. -/
def poolDemoState : List WorkerPhase :=
  ((initPool 5).set 0 .fetching).set 1 .fetching

def rawsW : List RawContainer :=
  [⟨"aaa", ["/web"], "nginx", "Up 2 hours", "running", [], 100⟩,
   ⟨"bbb", [], "redis", "Exited (0)", "exited", [], 50⟩,
   ⟨"ccc", ["/db"], "postgres", "Up 1 minute", "running", [], 60⟩]

/-- A stats oracle whose fetch fails for every container but `ccc`. -/
def fetchW : String → Option ContainerStats :=
  fun s => if s = "ccc" then some ⟨"5.00%", "1.00%", "0.1MB/0.2MB"⟩ else none

/-! ## Theorems -/

/-! ### Worker-pool counting lemmas -/

theorem countFetching_cons (w : WorkerPhase) (t : List WorkerPhase) :
    countFetching (w :: t) =
      countFetching t + (if w == WorkerPhase.fetching then 1 else 0) := by
  simp [countFetching, List.countP_cons]

theorem countFetching_replicate (n : Nat) :
    countFetching (List.replicate n .waiting) = 0 := by
  induction n with
  | zero => rfl
  | succ k ih => simpa [List.replicate_succ, countFetching_cons] using ih

theorem countFetching_set_acquire :
    ∀ (l : List WorkerPhase) (i : Nat), l.get? i = some .waiting →
      countFetching (l.set i .fetching) = countFetching l + 1 := by
  intro l
  induction l with
  | nil => intro i h; simp at h
  | cons c t ih =>
    intro i h
    cases i with
    | zero =>
      simp only [List.get?] at h
      cases h
      simp [List.set, countFetching_cons]
    | succ j =>
      simp only [List.get?] at h
      have := ih j h
      simp [List.set, countFetching_cons, this]
      omega

theorem countFetching_set_release :
    ∀ (l : List WorkerPhase) (i : Nat), l.get? i = some .fetching →
      countFetching l = countFetching (l.set i .finished) + 1 := by
  intro l
  induction l with
  | nil => intro i h; simp at h
  | cons c t ih =>
    intro i h
    cases i with
    | zero =>
      simp only [List.get?] at h
      cases h
      simp [List.set, countFetching_cons]
    | succ j =>
      simp only [List.get?] at h
      have := ih j h
      simp [List.set, countFetching_cons]
      omega

/-- Claim C4: with more fetch goroutines dispatched than the worker
ceiling, every state the pool can reach has at most
`maxStatsWorkers = 4` stats fetches in flight: a goroutine enters the
fetching phase only through `acquire`, which is enabled only while
fewer than 4 slots are held, and `release` frees a slot when the fetch
is done. -/
theorem pool_fetches_bounded (n : Nat) (s : List WorkerPhase)
    (h : PoolReach (initPool n) s) : countFetching s ≤ maxStatsWorkers := by
  induction h with
  | refl => simp [initPool, countFetching_replicate, maxStatsWorkers]
  | tail _ step ih =>
    cases step with
    | acquire i hw hsem =>
      rw [countFetching_set_acquire _ i hw]
      omega
    | release i hf =>
      have := countFetching_set_release _ i hf
      omega

/-- Witness for C4: a concrete reachable state of a five-goroutine pool
with two fetches in flight. -/
theorem pool_fetches_bounded_witness :
    PoolReach (initPool 5) poolDemoState ∧
      countFetching poolDemoState ≤ maxStatsWorkers := by
  have hreach : PoolReach (initPool 5) poolDemoState :=
    PoolReach.tail
      (PoolReach.tail (PoolReach.refl _)
        (PoolStep.acquire _ 0 (by decide) (by decide)))
      (PoolStep.acquire _ 1 (by decide) (by decide))
  exact ⟨hreach, pool_fetches_bounded 5 poolDemoState hreach⟩

/-! ### Stats formulas -/

/-- Claim C2: for every decoded stats sample the computed CPU
percentage is `(cpuDelta / systemDelta) * onlineCPUs * 100`, where
`cpuDelta` and `systemDelta` are the uint64 differences of current and
previous total CPU usage resp. system usage, and `onlineCPUs` falls
back to the per-CPU array length when the reported count is zero; the
result is 0 unless all three are strictly positive.  On the sample
`cpuDelta=200`, `systemDelta=1000`, `onlineCpus=4` it is exactly 80. -/
theorem cpu_percent_formula :
    (∀ p : StatsResponse,
      (getContainerStatsCore p).cpuPercent =
        (let cpuDelta : ℚ :=
          (sub64 p.cpuStats.cpuUsage.totalUsage p.preCpuStats.cpuUsage.totalUsage : ℚ)
        let systemDelta : ℚ :=
          (sub64 p.cpuStats.systemUsage p.preCpuStats.systemUsage : ℚ)
        let onlineCPUs : ℚ :=
          if p.cpuStats.onlineCPUs = 0 ∧ 0 < p.cpuStats.cpuUsage.percpuUsage.length then
            (p.cpuStats.cpuUsage.percpuUsage.length : ℚ)
          else (p.cpuStats.onlineCPUs : ℚ)
        if 0 < cpuDelta ∧ 0 < systemDelta ∧ 0 < onlineCPUs then
          cpuDelta / systemDelta * onlineCPUs * 100
        else 0)) ∧
    (getContainerStatsCore sampleC2).cpuPercent = 80 := by
  constructor
  · intro p
    simp only [getContainerStatsCore, Nat.cast_eq_zero]
  · show (getContainerStatsCore sampleC2).cpuPercent = 80
    norm_num [getContainerStatsCore, sampleC2, sub64, u64Mod]

/-- Claim C3: the memory percentage is `(usage / limit) * 100` when
`limit > 0` and `0` when `limit = 0` (the division is guarded);
`usage=50, limit=100` yields exactly 50. -/
theorem mem_percent_guarded :
    (∀ p : StatsResponse,
      (getContainerStatsCore p).memPercent =
        if 0 < p.memoryStats.limit then
          (p.memoryStats.usage : ℚ) / (p.memoryStats.limit : ℚ) * 100
        else 0) ∧
    (getContainerStatsCore sampleC3).memPercent = 50 ∧
    (getContainerStatsCore sampleC3zero).memPercent = 0 := by
  refine ⟨?_, ?_, ?_⟩
  · intro p
    simp only [getContainerStatsCore]
    by_cases h : 0 < p.memoryStats.limit
    · rw [if_pos (show (0 : ℚ) < (p.memoryStats.limit : ℚ) by exact_mod_cast h),
        if_pos h]
    · rw [if_neg (show ¬ (0 : ℚ) < (p.memoryStats.limit : ℚ) by exact_mod_cast h),
        if_neg h]
  · show (getContainerStatsCore sampleC3).memPercent = 50
    norm_num [getContainerStatsCore, sampleC3]
  · show (getContainerStatsCore sampleC3zero).memPercent = 0
    norm_num [getContainerStatsCore, sampleC3zero]

/-! ### Size parsing -/

theorem ratFloor_eq_intFloor (q : ℚ) : Rat.floor q = ⌊q⌋ := by
  rw [Rat.floor_def', Rat.floor_def]

theorem ratTrunc_of_nonneg (q : ℚ) (h : 0 ≤ q) : ratTrunc q = ⌊q⌋ := by
  unfold ratTrunc
  rw [if_neg (not_lt.mpr h), ratFloor_eq_intFloor]

/-- Evaluation helper: a `parseBytes` result produced through the
suffix path equals the floor of its (nonnegative) exact value. -/
theorem parseBytes_eval_aux (s : String) (q : ℚ) (n : Int)
    (h : parseBytes s = .ok (ratTrunc q)) (h0 : 0 ≤ q) (h1 : ⌊q⌋ = n) :
    parseBytes s = .ok n := by
  rw [h, ratTrunc_of_nonneg q h0, h1]

/-- Claim C9: `parseBytes` recognizes the suffixes `TB`, `GB`, `MB`,
`KB`, `B` longest-first and case-insensitively as powers of 1024,
allows fractional magnitudes with truncation to integer bytes
(`"1.5MB" = 1572864`), treats suffix-free input as a plain integer byte
count, and fails on empty input, non-numeric magnitudes, and
suffix-free non-integers. -/
theorem parseBytes_spec :
    parseBytes "1.5MB" = .ok 1572864 ∧
    parseBytes "1.5mb" = .ok 1572864 ∧
    parseBytes "1KB" = .ok 1024 ∧
    parseBytes "2TB" = .ok (2 * 1024 ^ 4) ∧
    parseBytes "3gb" = .ok (3 * 1024 ^ 3) ∧
    parseBytes "7b" = .ok 7 ∧
    parseBytes "100" = .ok 100 ∧
    (∃ e, parseBytes "" = .error e) ∧
    (∃ e, parseBytes "1.5" = .error e) ∧
    (∃ e, parseBytes "abcMB" = .error e) ∧
    (∀ s : String, ∀ v : Int,
      findByteSuffix (goToUpper (goTrim s)) = none → goToUpper (goTrim s) ≠ "" →
      goParseInt (goToUpper (goTrim s)) = some v → parseBytes s = .ok v) ∧
    (∀ s : String,
      findByteSuffix (goToUpper (goTrim s)) = none → goToUpper (goTrim s) ≠ "" →
      goParseInt (goToUpper (goTrim s)) = none →
      parseBytes s = .error ("invalid size format: " ++ goToUpper (goTrim s))) := by
  refine ⟨?_, ?_, ?_, ?_, ?_, ?_, rfl, ⟨_, rfl⟩, ⟨_, rfl⟩, ⟨_, rfl⟩, ?_, ?_⟩
  · exact parseBytes_eval_aux _
      ((1 : ℚ) * (((1 : ℕ) : ℚ) + ((5 : ℕ) : ℚ) / ((10 : ℚ) ^ (1 : ℕ))) * (1 : ℚ) *
        ((1024 ^ 2 : ℤ) : ℚ)) _ rfl (by norm_num) (by norm_num)
  · exact parseBytes_eval_aux _
      ((1 : ℚ) * (((1 : ℕ) : ℚ) + ((5 : ℕ) : ℚ) / ((10 : ℚ) ^ (1 : ℕ))) * (1 : ℚ) *
        ((1024 ^ 2 : ℤ) : ℚ)) _ rfl (by norm_num) (by norm_num)
  · exact parseBytes_eval_aux _
      ((1 : ℚ) * ((1 : ℕ) : ℚ) * (1 : ℚ) * ((1024 : ℤ) : ℚ)) _ rfl
      (by norm_num) (by norm_num)
  · exact parseBytes_eval_aux _
      ((1 : ℚ) * ((2 : ℕ) : ℚ) * (1 : ℚ) * ((1024 ^ 4 : ℤ) : ℚ)) _ rfl
      (by norm_num) (by norm_num)
  · exact parseBytes_eval_aux _
      ((1 : ℚ) * ((3 : ℕ) : ℚ) * (1 : ℚ) * ((1024 ^ 3 : ℤ) : ℚ)) _ rfl
      (by norm_num) (by norm_num)
  · exact parseBytes_eval_aux _
      ((1 : ℚ) * ((7 : ℕ) : ℚ) * (1 : ℚ) * ((1 : ℤ) : ℚ)) _ rfl
      (by norm_num) (by norm_num)
  · intro s v hfind hne hint
    simp only [parseBytes]
    rw [if_neg hne, hfind, hint]
  · intro s hfind hne hint
    simp only [parseBytes]
    rw [if_neg hne, hfind, hint]

/-- Witness for C9's suffix-free clause at `s = "123"`. -/
theorem parseBytes_spec_witness :
    findByteSuffix (goToUpper (goTrim "123")) = none ∧
      goToUpper (goTrim "123") ≠ "" ∧
      goParseInt (goToUpper (goTrim "123")) = some 123 ∧
      parseBytes "123" = .ok 123 :=
  ⟨by decide, by decide, by decide,
    parseBytes_spec.2.2.2.2.2.2.2.2.2.2.1 "123" 123 (by decide) (by decide) (by decide)⟩

/-! ### Matching: empty filters, AND semantics, unrecognized fields -/

/-- The `default: return true` arm of the container criterion switch. -/
theorem matchContainerCriterion_default (now : Int) (c : ContainerInfo)
    (cr : Criterion) (h1 : cr.Typ ≠ FilterAge) (h2 : cr.Typ ≠ FilterStatus)
    (h3 : cr.Typ ≠ FilterState) (h4 : cr.Typ ≠ FilterName) :
    matchContainerCriterion now c cr = true := by
  unfold matchContainerCriterion
  rw [if_neg h1, if_neg h2, if_neg h3, if_neg h4]

/-- The `default: return true` arm of the volume criterion switch. -/
theorem matchVolumeCriterion_default (now : Int) (vol : VolumeInfo)
    (cr : Criterion) (h1 : cr.Typ ≠ FilterAge) (h2 : cr.Typ ≠ FilterName)
    (h3 : cr.Typ ≠ FilterDriver) :
    matchVolumeCriterion now vol cr = true := by
  unfold matchVolumeCriterion
  rw [if_neg h1, if_neg h2, if_neg h3]

/-- Claim C6: an empty or all-whitespace input parses to the empty
filter without error, and a filter with no search term and no criteria
matches every container, image, network and volume record. -/
theorem empty_filter_matches_everything :
    (∀ cRE s, goTrim s = "" → ParseFilter cRE s = .ok Filter.New) ∧
    Filter.New.Criteria = [] ∧ Filter.New.SearchTerm = "" ∧
    (∀ f : Filter, f.SearchTerm = "" → f.Criteria = [] →
      (∀ now c, MatchContainer f now c = true) ∧
      (∀ now img, MatchImage f now img = true) ∧
      (∀ now net, MatchNetwork f now net = true) ∧
      (∀ now vol, MatchVolume f now vol = true)) := by
  refine ⟨?_, rfl, rfl, ?_⟩
  · intro cRE s h
    simp [ParseFilter, h]
  · intro f h1 h2
    refine ⟨?_, ?_, ?_, ?_⟩ <;> intro now x <;>
      simp [MatchContainer, MatchImage, MatchNetwork, MatchVolume, h1, h2]

/-- Witness for C6 at a whitespace input and a concrete container. -/
theorem empty_filter_matches_everything_witness :
    goTrim "   " = "" ∧ ParseFilter demoCompile "   " = .ok Filter.New ∧
      MatchContainer Filter.New 0 demoContainer = true :=
  ⟨by decide, empty_filter_matches_everything.1 demoCompile "   " (by decide),
    (empty_filter_matches_everything.2.2.2 Filter.New rfl rfl).1 0 demoContainer⟩

/-- Claim C7: in criteria mode (no search term) each `Match*` function
is the conjunction of its criteria, and a criterion whose field is not
recognized for the resource kind is vacuously true — e.g. `driver`,
`scope`, `tag` or `size` criteria never exclude a container, and any
field other than `age`, `name`, `driver` never excludes a volume. -/
theorem criteria_mode_and_semantics :
    (∀ f now c, f.SearchTerm = "" →
      (MatchContainer f now c = true ↔
        ∀ cr ∈ f.Criteria, matchContainerCriterion now c cr = true)) ∧
    (∀ f now img, f.SearchTerm = "" →
      (MatchImage f now img = true ↔
        ∀ cr ∈ f.Criteria, matchImageCriterion now img cr = true)) ∧
    (∀ f now net, f.SearchTerm = "" →
      (MatchNetwork f now net = true ↔
        ∀ cr ∈ f.Criteria, matchNetworkCriterion now net cr = true)) ∧
    (∀ f now vol, f.SearchTerm = "" →
      (MatchVolume f now vol = true ↔
        ∀ cr ∈ f.Criteria, matchVolumeCriterion now vol cr = true)) ∧
    (∀ now c cr,
      cr.Typ = FilterDriver ∨ cr.Typ = FilterScope ∨ cr.Typ = FilterTag ∨
        cr.Typ = FilterSize →
      matchContainerCriterion now c cr = true) ∧
    (∀ now vol cr, cr.Typ ≠ FilterAge → cr.Typ ≠ FilterName →
      cr.Typ ≠ FilterDriver → matchVolumeCriterion now vol cr = true) := by
  refine ⟨?_, ?_, ?_, ?_, ?_, ?_⟩
  · intro f now c h
    simp [MatchContainer, h, List.all_eq_true]
  · intro f now img h
    simp [MatchImage, h, List.all_eq_true]
  · intro f now net h
    simp [MatchNetwork, h, List.all_eq_true]
  · intro f now vol h
    simp [MatchVolume, h, List.all_eq_true]
  · intro now c cr h
    rcases h with h | h | h | h <;>
      exact matchContainerCriterion_default now c cr
        (by rw [h]; decide) (by rw [h]; decide) (by rw [h]; decide) (by rw [h]; decide)
  · intro now vol cr h1 h2 h3
    exact matchVolumeCriterion_default now vol cr h1 h2 h3

/-- Witness for C7 at a `driver` criterion against a container and a
filter built from it. -/
theorem criteria_mode_and_semantics_witness :
    (demoDriverCriterion.Typ = FilterDriver ∨ demoDriverCriterion.Typ = FilterScope ∨
      demoDriverCriterion.Typ = FilterTag ∨ demoDriverCriterion.Typ = FilterSize) ∧
    matchContainerCriterion 0 demoContainer demoDriverCriterion = true :=
  ⟨Or.inl rfl,
    criteria_mode_and_semantics.2.2.2.2.1 0 demoContainer demoDriverCriterion (Or.inl rfl)⟩

/-! ### Image size criteria re-parse the display string -/

/-- Claim C8: a `size` criterion against an image is evaluated by
pulling the leading whitespace-separated token out of the pre-formatted
`Size` display string, reading it as a decimal number `N`, and
comparing `int64(N * 1024 * 1024)` — megabytes are assumed
unconditionally — against the criterion's parsed byte count with the
criterion's operator; a missing or non-numeric leading token makes the
criterion match vacuously.  `"100.50 MB"` against `size>100MB` matches
(105381888 > 104857600 bytes); `"N/A"` matches vacuously. -/
theorem image_size_reparses_display :
    (∀ now img cr tok rest q, cr.Typ = FilterSize →
      goFields img.Size = tok :: rest → goParseFloat tok = some q →
      matchImageCriterion now img cr =
        compareNumeric ((ratTrunc (q * (1024 * 1024 : ℚ)) : ℚ)) cr.Op (cr.Bytes : ℚ)) ∧
    (∀ now img cr tok rest, cr.Typ = FilterSize →
      goFields img.Size = tok :: rest → goParseFloat tok = none →
      matchImageCriterion now img cr = true) ∧
    (∀ now img cr, cr.Typ = FilterSize → goFields img.Size = [] →
      matchImageCriterion now img cr = true) ∧
    matchImageCriterion 0 demoImage demoSizeCriterion = true ∧
    matchImageCriterion 0 demoImageBad demoSizeCriterion = true := by
  have harm : ∀ now img (cr : Criterion), cr.Typ = FilterSize →
      matchImageCriterion now img cr =
        match goFields img.Size with
        | tok :: _ =>
          match goParseFloat tok with
          | some val =>
            compareNumeric ((ratTrunc (val * (1024 * 1024 : ℚ)) : ℚ)) cr.Op (cr.Bytes : ℚ)
          | none => true
        | [] => true := by
    intro now img cr h
    unfold matchImageCriterion
    rw [if_neg (by rw [h]; decide), if_neg (by rw [h]; decide), if_pos h]
  refine ⟨?_, ?_, ?_, ?_, ?_⟩
  · intro now img cr tok rest q hT hF hQ
    rw [harm now img cr hT, hF]
    simp only [hQ]
  · intro now img cr tok rest hT hF hQ
    rw [harm now img cr hT, hF]
    simp only [hQ]
  · intro now img cr hT hF
    rw [harm now img cr hT, hF]
  · have hF : goFields demoImage.Size = ["100.50", "MB"] := by decide
    have hQ : goParseFloat "100.50" =
        some ((1 : ℚ) * (((100 : ℕ) : ℚ) + ((50 : ℕ) : ℚ) / ((10 : ℚ) ^ (2 : ℕ))) * (1 : ℚ)) :=
      rfl
    rw [harm 0 demoImage demoSizeCriterion rfl, hF]
    simp only [hQ]
    have htr : ratTrunc ((1 : ℚ) * (((100 : ℕ) : ℚ) + ((50 : ℕ) : ℚ) / ((10 : ℚ) ^ (2 : ℕ))) *
        (1 : ℚ) * (1024 * 1024 : ℚ)) = 105381888 := by
      rw [ratTrunc_of_nonneg _ (by norm_num)]
      norm_num
    rw [htr]
    unfold compareNumeric
    rw [if_neg (by decide), if_neg (by decide),
      if_pos (show demoSizeCriterion.Op = OpGreater from rfl)]
    decide
  · have hF : goFields demoImageBad.Size = ["N/A"] := by decide
    have hQ : goParseFloat "N/A" = none := rfl
    rw [harm 0 demoImageBad demoSizeCriterion rfl, hF]
    simp only [hQ]

/-- Witness for C8's vacuous branch at an image with an empty size
string. -/
theorem image_size_reparses_display_witness :
    demoImageEmpty.Size = "" ∧ goFields demoImageEmpty.Size = [] ∧
      matchImageCriterion 0 demoImageEmpty demoSizeCriterion = true :=
  ⟨rfl, by decide,
    image_size_reparses_display.2.2.1 0 demoImageEmpty demoSizeCriterion rfl (by decide)⟩

/-! ### Ordering operators on string fields -/

/-- Claim C10: `compareString` has no arm for the ordering operators,
so a `>`, `<`, `>=` or `<=` criterion dispatched to a string-valued
field (container status/state/name, image tag, network
name/driver/scope, volume name/driver) is false for every record value
and therefore excludes every record of that kind. -/
theorem ordering_ops_on_string_fields_exclude :
    (∀ actual op expected regex,
      op = OpGreater ∨ op = OpLess ∨ op = OpGreaterEqual ∨ op = OpLessEqual →
      compareString actual op expected regex = false) ∧
    (∀ now c cr,
      cr.Typ = FilterStatus ∨ cr.Typ = FilterState ∨ cr.Typ = FilterName →
      cr.Op = OpGreater ∨ cr.Op = OpLess ∨ cr.Op = OpGreaterEqual ∨ cr.Op = OpLessEqual →
      matchContainerCriterion now c cr = false) ∧
    (∀ now img cr,
      cr.Typ = FilterName ∨ cr.Typ = FilterTag →
      cr.Op = OpGreater ∨ cr.Op = OpLess ∨ cr.Op = OpGreaterEqual ∨ cr.Op = OpLessEqual →
      matchImageCriterion now img cr = false) ∧
    (∀ now net cr,
      cr.Typ = FilterName ∨ cr.Typ = FilterDriver ∨ cr.Typ = FilterScope →
      cr.Op = OpGreater ∨ cr.Op = OpLess ∨ cr.Op = OpGreaterEqual ∨ cr.Op = OpLessEqual →
      matchNetworkCriterion now net cr = false) ∧
    (∀ now vol cr,
      cr.Typ = FilterName ∨ cr.Typ = FilterDriver →
      cr.Op = OpGreater ∨ cr.Op = OpLess ∨ cr.Op = OpGreaterEqual ∨ cr.Op = OpLessEqual →
      matchVolumeCriterion now vol cr = false) ∧
    (∀ f now c cr, f.SearchTerm = "" → cr ∈ f.Criteria →
      cr.Typ = FilterName →
      cr.Op = OpGreater ∨ cr.Op = OpLess ∨ cr.Op = OpGreaterEqual ∨ cr.Op = OpLessEqual →
      MatchContainer f now c = false) := by
  have hcs : ∀ (actual op expected : String) (regex : Option (String → Bool)),
      op = OpGreater ∨ op = OpLess ∨ op = OpGreaterEqual ∨ op = OpLessEqual →
      compareString actual op expected regex = false := by
    intro actual op expected regex h
    unfold compareString
    rcases h with h | h | h | h <;>
      rw [if_neg (by rw [h]; decide), if_neg (by rw [h]; decide),
        if_neg (by rw [h]; decide), if_neg (by rw [h]; decide),
        if_neg (by rw [h]; decide)]
  have hcont : ∀ now (c : ContainerInfo) (cr : Criterion),
      cr.Typ = FilterStatus ∨ cr.Typ = FilterState ∨ cr.Typ = FilterName →
      cr.Op = OpGreater ∨ cr.Op = OpLess ∨ cr.Op = OpGreaterEqual ∨ cr.Op = OpLessEqual →
      matchContainerCriterion now c cr = false := by
    intro now c cr hT hO
    unfold matchContainerCriterion
    rcases hT with hT | hT | hT
    · rw [if_neg (by rw [hT]; decide), if_pos hT]
      exact hcs _ _ _ _ hO
    · rw [if_neg (by rw [hT]; decide), if_neg (by rw [hT]; decide), if_pos hT]
      exact hcs _ _ _ _ hO
    · rw [if_neg (by rw [hT]; decide), if_neg (by rw [hT]; decide),
        if_neg (by rw [hT]; decide), if_pos hT]
      exact hcs _ _ _ _ hO
  refine ⟨hcs, hcont, ?_, ?_, ?_, ?_⟩
  · intro now img cr hT hO
    unfold matchImageCriterion
    have hT' : cr.Typ = FilterName ∨ cr.Typ = FilterTag := hT
    rw [if_neg (by rcases hT with h | h <;> rw [h] <;> decide), if_pos hT']
    exact hcs _ _ _ _ hO
  · intro now net cr hT hO
    unfold matchNetworkCriterion
    rcases hT with hT | hT | hT
    · rw [if_neg (by rw [hT]; decide), if_pos hT]
      exact hcs _ _ _ _ hO
    · rw [if_neg (by rw [hT]; decide), if_neg (by rw [hT]; decide), if_pos hT]
      exact hcs _ _ _ _ hO
    · rw [if_neg (by rw [hT]; decide), if_neg (by rw [hT]; decide),
        if_neg (by rw [hT]; decide), if_pos hT]
      exact hcs _ _ _ _ hO
  · intro now vol cr hT hO
    unfold matchVolumeCriterion
    rcases hT with hT | hT
    · rw [if_neg (by rw [hT]; decide), if_pos hT]
      exact hcs _ _ _ _ hO
    · rw [if_neg (by rw [hT]; decide), if_neg (by rw [hT]; decide), if_pos hT]
      exact hcs _ _ _ _ hO
  · intro f now c cr hs hmem hT hO
    have hfalse : matchContainerCriterion now c cr = false :=
      hcont now c cr (Or.inr (Or.inr hT)) hO
    simp only [MatchContainer, if_neg (by simp [hs] : ¬ f.SearchTerm ≠ "")]
    rw [List.all_eq_false]
    exact ⟨cr, hmem, by simp [hfalse]⟩

/-- Witness for C10 at a `name>` criterion against a container. -/
theorem ordering_ops_on_string_fields_exclude_witness :
    (demoOrderCriterion.Typ = FilterName) ∧
    (demoOrderCriterion.Op = OpGreater ∨ demoOrderCriterion.Op = OpLess ∨
      demoOrderCriterion.Op = OpGreaterEqual ∨ demoOrderCriterion.Op = OpLessEqual) ∧
    matchContainerCriterion 0 demoContainer demoOrderCriterion = false :=
  ⟨rfl, Or.inl rfl,
    ordering_ops_on_string_fields_exclude.2.1 0 demoContainer demoOrderCriterion
      (Or.inr (Or.inr rfl)) (Or.inl rfl)⟩

/-! ### All-or-nothing filter parsing -/

/-- If the clause loop succeeds, every non-blank clause parsed. -/
theorem parseParts_ok_clauses (cRE : String → Except String (String → Bool)) :
    ∀ (parts : List String) (f0 f : Filter), parseParts cRE parts f0 = .ok f →
      ∀ p ∈ parts, goTrim p ≠ "" → ∃ c, parseCriterion cRE (goTrim p) = .ok c := by
  intro parts
  induction parts with
  | nil =>
    intro f0 f h p hp
    simp at hp
  | cons q rest ih =>
    intro f0 f h p hp hne
    rcases List.mem_cons.mp hp with rfl | hp'
    · simp only [parseParts] at h
      rw [if_neg hne] at h
      cases hc : parseCriterion cRE (goTrim p) with
      | error e => rw [hc] at h; exact absurd h (by simp)
      | ok c => exact ⟨c, rfl⟩
    · by_cases hq : goTrim q = ""
      · simp only [parseParts] at h
        rw [if_pos hq] at h
        exact ih _ _ h p hp' hne
      · simp only [parseParts] at h
        rw [if_neg hq] at h
        cases hc : parseCriterion cRE (goTrim q) with
        | error e => rw [hc] at h; exact absurd h (by simp)
        | ok c =>
          rw [hc] at h
          exact ih _ _ h p hp' hne

/-- If some non-blank clause fails, the clause loop returns an error
whose message embeds the (first such) failing clause. -/
theorem parseParts_error_of_clause_fail
    (cRE : String → Except String (String → Bool)) :
    ∀ (parts : List String) (f0 : Filter),
      (∃ p ∈ parts, goTrim p ≠ "" ∧ ∃ e, parseCriterion cRE (goTrim p) = .error e) →
      ∃ msg p, parseParts cRE parts f0 = .error msg ∧ p ∈ parts ∧ goTrim p ≠ "" ∧
        (∃ e, parseCriterion cRE (goTrim p) = .error e) ∧
        ∃ pre suf, msg = pre ++ goTrim p ++ suf := by
  intro parts
  induction parts with
  | nil =>
    intro f0 h
    rcases h with ⟨p, hp, _⟩
    simp at hp
  | cons q rest ih =>
    intro f0 h
    by_cases hq : goTrim q = ""
    · have h' : ∃ p ∈ rest, goTrim p ≠ "" ∧
          ∃ e, parseCriterion cRE (goTrim p) = .error e := by
        rcases h with ⟨p, hp, hne, he⟩
        rcases List.mem_cons.mp hp with rfl | hp'
        · exact absurd hq hne
        · exact ⟨p, hp', hne, he⟩
      rcases ih f0 h' with ⟨msg, p, hpp, hmem, hne, he, hsub⟩
      refine ⟨msg, p, ?_, List.mem_cons_of_mem _ hmem, hne, he, hsub⟩
      simp only [parseParts]
      rw [if_pos hq]
      exact hpp
    · cases hc : parseCriterion cRE (goTrim q) with
      | error e =>
        refine ⟨"parse criterion \x27" ++ goTrim q ++ "\x27: " ++ e, q, ?_,
          List.mem_cons_self q rest, hq, ⟨e, hc⟩,
          "parse criterion \x27", "\x27: " ++ e, ?_⟩
        · simp only [parseParts]
          rw [if_neg hq, hc]
        · rw [String.append_assoc]
      | ok c =>
        have h' : ∃ p ∈ rest, goTrim p ≠ "" ∧
            ∃ e, parseCriterion cRE (goTrim p) = .error e := by
          rcases h with ⟨p, hp, hne, e, he⟩
          rcases List.mem_cons.mp hp with rfl | hp'
          · rw [hc] at he; cases he
          · exact ⟨p, hp', hne, e, he⟩
        rcases ih { f0 with Criteria := f0.Criteria ++ [c] } h' with
          ⟨msg, p, hpp, hmem, hne, he, hsub⟩
        refine ⟨msg, p, ?_, List.mem_cons_of_mem _ hmem, hne, he, hsub⟩
        simp only [parseParts]
        rw [if_neg hq, hc]
        exact hpp

/-- Claim C5: `ParseFilter` on an input containing an operator
character is all-or-nothing — a successful parse means every non-blank
comma clause parsed, and any failing clause yields an error naming the
offending clause with no `Filter` returned; correspondingly
`applyFilter` leaves the previously active filter unchanged whenever
`ParseFilter` errors. -/
theorem parse_filter_all_or_nothing :
    (∀ cRE input f, hasOperators (goTrim input) = true →
      ParseFilter cRE input = .ok f →
      ∀ p ∈ goSplitComma (goTrim input), goTrim p ≠ "" →
        ∃ c, parseCriterion cRE (goTrim p) = .ok c) ∧
    (∀ cRE input, hasOperators (goTrim input) = true →
      (∃ p ∈ goSplitComma (goTrim input), goTrim p ≠ "" ∧
        ∃ e, parseCriterion cRE (goTrim p) = .error e) →
      ∃ msg p, ParseFilter cRE input = .error msg ∧
        p ∈ goSplitComma (goTrim input) ∧ goTrim p ≠ "" ∧
        (∃ e, parseCriterion cRE (goTrim p) = .error e) ∧
        ∃ pre suf, msg = pre ++ goTrim p ++ suf) ∧
    (∀ cRE text u e, ParseFilter cRE text = .error e →
      (applyFilter cRE text u).filter = u.filter) := by
  have hne : ∀ s : String, hasOperators s = true → s ≠ "" := by
    intro s h hs
    subst hs
    exact absurd h (by decide)
  refine ⟨?_, ?_, ?_⟩
  · intro cRE input f hop hok p hp hne'
    simp only [ParseFilter] at hok
    rw [if_neg (hne _ hop), if_pos hop] at hok
    exact parseParts_ok_clauses cRE _ _ _ hok p hp hne'
  · intro cRE input hop hfail
    rcases parseParts_error_of_clause_fail cRE (goSplitComma (goTrim input))
      Filter.New hfail with ⟨msg, p, hpp, hmem, hne', he, hsub⟩
    refine ⟨msg, p, ?_, hmem, hne', he, hsub⟩
    simp only [ParseFilter]
    rw [if_neg (hne _ hop), if_pos hop]
    exact hpp
  · intro cRE text u e h
    simp [applyFilter, h]

/-- Witness for C5 at `"age>1h,size=abc"`, whose second clause fails to
parse as a size. -/
theorem parse_filter_all_or_nothing_witness :
    hasOperators (goTrim "age>1h,size=abc") = true ∧
    (∃ p ∈ goSplitComma (goTrim "age>1h,size=abc"), goTrim p ≠ "" ∧
      ∃ e, parseCriterion demoCompile (goTrim p) = .error e) ∧
    (∃ msg p, ParseFilter demoCompile "age>1h,size=abc" = .error msg ∧
      p ∈ goSplitComma (goTrim "age>1h,size=abc") ∧ goTrim p ≠ "" ∧
      (∃ e, parseCriterion demoCompile (goTrim p) = .error e) ∧
      ∃ pre suf, msg = pre ++ goTrim p ++ suf) :=
  ⟨by decide, ⟨"size=abc", by decide, by decide, ⟨_, rfl⟩⟩,
    parse_filter_all_or_nothing.2.1 demoCompile "age>1h,size=abc" (by decide)
      ⟨"size=abc", by decide, by decide, ⟨_, rfl⟩⟩⟩

/-! ### `ListContainers`: isolation of individual fetch failures -/

theorem get?_map_of_lt {α β : Type} (f : α → β) :
    ∀ (l : List α) (i : Nat) (h : i < l.length),
      (l.map f).get? i = some (f (l.get ⟨i, h⟩)) := by
  intro l
  induction l with
  | nil => intro i h; simp at h
  | cons a t ih =>
    intro i h
    cases i with
    | zero => rfl
    | succ j => simpa using ih j (Nat.lt_of_succ_lt_succ h)

theorem setStats_get?_ne :
    ∀ (l : List ContainerInfo) (i : Nat) (st : ContainerStats) (j : Nat), i ≠ j →
      (setStats l i st).get? j = l.get? j := by
  intro l
  induction l with
  | nil => intro i st j _; cases i <;> rfl
  | cons c t ih =>
    intro i st j hne
    cases i with
    | zero =>
      cases j with
      | zero => exact absurd rfl hne
      | succ j' => rfl
    | succ i' =>
      cases j with
      | zero => rfl
      | succ j' =>
        simpa [setStats] using ih i' st j' (fun hc => hne (by rw [hc]))

theorem setStats_get?_self :
    ∀ (l : List ContainerInfo) (i : Nat) (st : ContainerStats),
      (setStats l i st).get? i = (l.get? i).map (fun c => withStats c st) := by
  intro l
  induction l with
  | nil => intro i st; cases i <;> rfl
  | cons c t ih =>
    intro i st
    cases i with
    | zero => rfl
    | succ i' => simpa [setStats] using ih i' st

theorem setStats_length :
    ∀ (l : List ContainerInfo) (i : Nat) (st : ContainerStats),
      (setStats l i st).length = l.length := by
  intro l
  induction l with
  | nil => intro i st; cases i <;> rfl
  | cons c t ih =>
    intro i st
    cases i with
    | zero => rfl
    | succ i' => simpa [setStats] using ih i' st

theorem applyStats_length (fetch : String → Option ContainerStats) :
    ∀ (m : List (String × Nat)) (acc : List ContainerInfo),
      (applyStats fetch m acc).length = acc.length := by
  intro m
  induction m with
  | nil => intro acc; rfl
  | cons e rest ih =>
    intro acc
    simp only [applyStats]
    cases fetch e.1 with
    | none => exact ih acc
    | some st => rw [ih (setStats acc e.2 st), setStats_length]

theorem applyStats_get?_notMem (fetch : String → Option ContainerStats) :
    ∀ (m : List (String × Nat)) (acc : List ContainerInfo) (i : Nat),
      i ∉ m.map Prod.snd →
      (applyStats fetch m acc).get? i = acc.get? i := by
  intro m
  induction m with
  | nil => intro acc i _; rfl
  | cons e rest ih =>
    intro acc i hi
    simp only [List.map_cons, List.mem_cons] at hi
    push_neg at hi
    simp only [applyStats]
    cases fetch e.1 with
    | none => exact ih acc i hi.2
    | some st =>
      rw [ih (setStats acc e.2 st) i hi.2]
      exact setStats_get?_ne acc e.2 st i (fun hc => hi.1 (by rw [hc]))

theorem applyStats_get?_mem_none (fetch : String → Option ContainerStats) :
    ∀ (m : List (String × Nat)) (acc : List ContainerInfo) (id : String) (i : Nat),
      (m.map Prod.snd).Nodup → (id, i) ∈ m → fetch id = none →
      (applyStats fetch m acc).get? i = acc.get? i := by
  intro m
  induction m with
  | nil => intro acc id i _ hmem _; simp at hmem
  | cons e rest ih =>
    intro acc id i hnd hmem hf
    have hnd' : (rest.map Prod.snd).Nodup :=
      (List.nodup_cons.mp (by simpa using hnd)).2
    have hhd : e.2 ∉ rest.map Prod.snd :=
      (List.nodup_cons.mp (by simpa using hnd)).1
    rcases List.mem_cons.mp hmem with heq | hmem'
    · obtain ⟨e1, e2⟩ := e
      obtain ⟨h1, h2⟩ := Prod.mk.injEq .. ▸ heq
      subst h1
      subst h2
      simp only [applyStats, hf]
      exact applyStats_get?_notMem fetch rest acc i hhd
    · have hne : e.2 ≠ i := by
        intro hc
        exact hhd (hc ▸ List.mem_map_of_mem Prod.snd hmem')
      simp only [applyStats]
      cases fetch e.1 with
      | none => exact ih acc id i hnd' hmem' hf
      | some st =>
        rw [ih (setStats acc e.2 st) id i hnd' hmem' hf]
        exact setStats_get?_ne acc e.2 st i hne

theorem applyStats_get?_mem_some (fetch : String → Option ContainerStats)
    (st0 : ContainerStats) :
    ∀ (m : List (String × Nat)) (acc : List ContainerInfo) (id : String) (i : Nat),
      (m.map Prod.snd).Nodup → (id, i) ∈ m → fetch id = some st0 →
      (applyStats fetch m acc).get? i =
        (acc.get? i).map (fun c => withStats c st0) := by
  intro m
  induction m with
  | nil => intro acc id i _ hmem _; simp at hmem
  | cons e rest ih =>
    intro acc id i hnd hmem hf
    have hnd' : (rest.map Prod.snd).Nodup :=
      (List.nodup_cons.mp (by simpa using hnd)).2
    have hhd : e.2 ∉ rest.map Prod.snd :=
      (List.nodup_cons.mp (by simpa using hnd)).1
    rcases List.mem_cons.mp hmem with heq | hmem'
    · obtain ⟨e1, e2⟩ := e
      obtain ⟨h1, h2⟩ := Prod.mk.injEq .. ▸ heq
      subst h1
      subst h2
      simp only [applyStats, hf]
      rw [applyStats_get?_notMem fetch rest _ i hhd]
      exact setStats_get?_self acc i st0
    · have hne : e.2 ≠ i := by
        intro hc
        exact hhd (hc ▸ List.mem_map_of_mem Prod.snd hmem')
      simp only [applyStats]
      cases fetch e.1 with
      | none => exact ih acc id i hnd' hmem' hf
      | some st =>
        rw [ih (setStats acc e.2 st) id i hnd' hmem' hf]
        rw [setStats_get?_ne acc e.2 st i hne]

theorem runEntries_elim :
    ∀ (cs : List RawContainer) (k : Nat) (p : String × Nat),
      p ∈ runEntries k cs → ∃ j, ∃ h : j < cs.length,
        p = ((cs.get ⟨j, h⟩).id, k + j) ∧ (cs.get ⟨j, h⟩).state = "running" := by
  intro cs
  induction cs with
  | nil => intro k p hp; simp [runEntries] at hp
  | cons c rest ih =>
    intro k p hp
    by_cases hc : c.state = "running"
    · rw [runEntries, if_pos hc] at hp
      rcases List.mem_cons.mp hp with rfl | hp'
      · exact ⟨0, Nat.succ_pos _, by simp, hc⟩
      · rcases ih (k + 1) p hp' with ⟨j, hj, hpe, hst⟩
        refine ⟨j + 1, Nat.succ_lt_succ hj, ?_, hst⟩
        rw [hpe]
        have : k + 1 + j = k + (j + 1) := by omega
        rw [this]
        rfl
    · rw [runEntries, if_neg hc] at hp
      rcases ih (k + 1) p hp with ⟨j, hj, hpe, hst⟩
      refine ⟨j + 1, Nat.succ_lt_succ hj, ?_, hst⟩
      rw [hpe]
      have : k + 1 + j = k + (j + 1) := by omega
      rw [this]
      rfl

theorem runEntries_intro :
    ∀ (cs : List RawContainer) (k j : Nat) (h : j < cs.length),
      (cs.get ⟨j, h⟩).state = "running" →
      ((cs.get ⟨j, h⟩).id, k + j) ∈ runEntries k cs := by
  intro cs
  induction cs with
  | nil => intro k j h; simp at h
  | cons c rest ih =>
    intro k j h hst
    cases j with
    | zero =>
      have hst' : c.state = "running" := hst
      rw [runEntries, if_pos hst']
      exact List.mem_cons_self _ _
    | succ j' =>
      have h' : j' < rest.length := Nat.lt_of_succ_lt_succ h
      have hst' : (rest.get ⟨j', h'⟩).state = "running" := hst
      have hmem := ih (k + 1) j' h' hst'
      have he : k + (j' + 1) = k + 1 + j' := by omega
      by_cases hc : c.state = "running"
      · rw [runEntries, if_pos hc]
        refine List.mem_cons_of_mem _ ?_
        show ((rest.get ⟨j', h'⟩).id, k + (j' + 1)) ∈ runEntries (k + 1) rest
        rw [he]
        exact hmem
      · rw [runEntries, if_neg hc]
        show ((rest.get ⟨j', h'⟩).id, k + (j' + 1)) ∈ runEntries (k + 1) rest
        rw [he]
        exact hmem

theorem runEntries_snd_nodup :
    ∀ (cs : List RawContainer) (k : Nat),
      ((runEntries k cs).map Prod.snd).Nodup := by
  intro cs
  induction cs with
  | nil => intro k; simp [runEntries]
  | cons c rest ih =>
    intro k
    by_cases hc : c.state = "running"
    · rw [runEntries, if_pos hc]
      simp only [List.map_cons]
      refine List.nodup_cons.mpr ⟨?_, ih (k + 1)⟩
      intro hk
      rcases List.mem_map.mp hk with ⟨p, hp, hpk⟩
      rcases runEntries_elim rest (k + 1) p hp with ⟨j, hj, hpe, _⟩
      rw [hpe] at hpk
      simp at hpk
      omega
    · rw [runEntries, if_neg hc]
      exact ih (k + 1)

theorem runEntries_snd_not_mem (cs : List RawContainer) (k j : Nat)
    (h : j < cs.length) (hst : (cs.get ⟨j, h⟩).state ≠ "running") :
    (k + j) ∉ (runEntries k cs).map Prod.snd := by
  intro hmem
  rcases List.mem_map.mp hmem with ⟨p, hp, hpk⟩
  rcases runEntries_elim cs k p hp with ⟨j', hj', hpe, hrun⟩
  rw [hpe] at hpk
  simp only at hpk
  have : j' = j := by omega
  subst this
  exact hst hrun

theorem runEntries_fst_sublist :
    ∀ (cs : List RawContainer) (k : Nat),
      ((runEntries k cs).map Prod.fst).Sublist (cs.map RawContainer.id) := by
  intro cs
  induction cs with
  | nil => intro k; simp [runEntries]
  | cons c rest ih =>
    intro k
    by_cases hc : c.state = "running"
    · rw [runEntries, if_pos hc]
      simp only [List.map_cons]
      exact List.Sublist.cons₂ _ (ih (k + 1))
    · rw [runEntries, if_neg hc]
      simp only [List.map_cons]
      exact List.Sublist.cons _ (ih (k + 1))

theorem mapInsert_notMem :
    ∀ (m : List (String × Nat)) (k : String) (v : Nat),
      k ∉ m.map Prod.fst → mapInsert m k v = m ++ [(k, v)] := by
  intro m
  induction m with
  | nil => intro k v _; rfl
  | cons e rest ih =>
    intro k v hk
    simp only [List.map_cons, List.mem_cons] at hk
    push_neg at hk
    simp only [mapInsert]
    rw [if_neg (fun hc => hk.1 hc.symm), ih k v hk.2]
    rfl

theorem foldl_mapInsert_append :
    ∀ (l acc : List (String × Nat)),
      (acc.map Prod.fst ++ l.map Prod.fst).Nodup →
      l.foldl (fun m e => mapInsert m e.1 e.2) acc = acc ++ l := by
  intro l
  induction l with
  | nil => intro acc _; simp
  | cons e rest ih =>
    intro acc hnd
    have hke : e.1 ∉ acc.map Prod.fst := by
      intro hmem
      have hdisj := (List.nodup_append.mp hnd).2.2
      exact hdisj hmem (by simp)
    have hnd' : ((acc ++ [e]).map Prod.fst ++ rest.map Prod.fst).Nodup := by
      simpa [List.map_append, List.append_assoc] using hnd
    simp only [List.foldl_cons]
    rw [mapInsert_notMem acc e.1 e.2 hke, ih (acc ++ [e]) hnd']
    simp

theorem buildRunningMap_eq (cs : List RawContainer)
    (hids : (cs.map RawContainer.id).Nodup) :
    buildRunningMap cs = runEntries 0 cs := by
  unfold buildRunningMap
  have h1 : ((runEntries 0 cs).map Prod.fst).Nodup :=
    (runEntries_fst_sublist cs 0).nodup hids
  have := foldl_mapInsert_append (runEntries 0 cs) [] (by simpa using h1)
  simpa using this

/-- Per-index characterization of `listContainersPure`: each container
keeps its freshly built record, with the three metric fields rewritten
exactly when it is running and its fetch succeeded. -/
theorem listContainersPure_get? (now : Int) (cs : List RawContainer)
    (fetch : String → Option ContainerStats)
    (hids : (cs.map RawContainer.id).Nodup) (i : Nat) (h : i < cs.length) :
    (listContainersPure now cs fetch).get? i =
      some (if (cs.get ⟨i, h⟩).state = "running" then
              match fetch (cs.get ⟨i, h⟩).id with
              | some st => withStats (buildInfo now (cs.get ⟨i, h⟩)) st
              | none => buildInfo now (cs.get ⟨i, h⟩)
            else buildInfo now (cs.get ⟨i, h⟩)) := by
  unfold listContainersPure
  rw [buildRunningMap_eq cs hids]
  have hbase := get?_map_of_lt (buildInfo now) cs i h
  by_cases hrun : (cs.get ⟨i, h⟩).state = "running"
  · have hmem : ((cs.get ⟨i, h⟩).id, i) ∈ runEntries 0 cs := by
      have := runEntries_intro cs 0 i h hrun
      simpa using this
    cases hf : fetch (cs.get ⟨i, h⟩).id with
    | none =>
      rw [applyStats_get?_mem_none fetch _ _ _ _ (runEntries_snd_nodup cs 0) hmem hf,
        hbase, if_pos hrun]
    | some st =>
      rw [applyStats_get?_mem_some fetch st _ _ _ _ (runEntries_snd_nodup cs 0) hmem hf,
        hbase, if_pos hrun]
      rfl
  · have hnotin : i ∉ (runEntries 0 cs).map Prod.snd := by
      have := runEntries_snd_not_mem cs 0 i h hrun
      simpa using this
    rw [applyStats_get?_notMem fetch _ _ _ hnotin, hbase, if_neg hrun]

/-- Claim C1: when any running container's stats fetch fails (the
oracle returns `none`, covering timeout, transport and decode
failures), `ListContainers` still returns `.ok`; the failed container's
CPU/Memory/NetIO stay at the `"-"` sentinel of its freshly built
record, every other container's record is built normally (with stats
filled in when its own fetch succeeded), and no error is surfaced for
an individual fetch failure.  The hypothesis that listed container IDs
are distinct reflects the runtime's ID uniqueness (the `runningContainers`
map is keyed by ID). -/
theorem listContainers_fetch_failures_isolated
    (now : Int) (cs : List RawContainer) (fetch : String → Option ContainerStats)
    (hids : (cs.map RawContainer.id).Nodup) :
    ∃ out, ListContainers now (.ok cs) fetch = .ok out ∧
      out.length = cs.length ∧
      ∀ i (h : i < cs.length),
        ((cs.get ⟨i, h⟩).state = "running" → fetch (cs.get ⟨i, h⟩).id = none →
          out.get? i = some (buildInfo now (cs.get ⟨i, h⟩))) ∧
        ((cs.get ⟨i, h⟩).state = "running" →
          ∀ st, fetch (cs.get ⟨i, h⟩).id = some st →
          out.get? i = some (withStats (buildInfo now (cs.get ⟨i, h⟩)) st)) ∧
        ((cs.get ⟨i, h⟩).state ≠ "running" →
          out.get? i = some (buildInfo now (cs.get ⟨i, h⟩))) ∧
        (buildInfo now (cs.get ⟨i, h⟩)).CPU = "-" ∧
        (buildInfo now (cs.get ⟨i, h⟩)).Memory = "-" ∧
        (buildInfo now (cs.get ⟨i, h⟩)).NetIo = "-" := by
  refine ⟨listContainersPure now cs fetch, rfl, ?_, ?_⟩
  · unfold listContainersPure
    rw [applyStats_length]
    simp
  · intro i h
    have hchar := listContainersPure_get? now cs fetch hids i h
    refine ⟨?_, ?_, ?_, rfl, rfl, rfl⟩
    · intro hrun hf
      rw [hchar, if_pos hrun, hf]
    · intro hrun st hf
      rw [hchar, if_pos hrun, hf]
    · intro hrun
      rw [hchar, if_neg hrun]

/-- Witness for C1: three listed containers, two running, the fetch for
`aaa` failing and the fetch for `ccc` succeeding. -/
theorem listContainers_fetch_failures_isolated_witness :
    (rawsW.map RawContainer.id).Nodup ∧
    (∃ out, ListContainers 0 (.ok rawsW) fetchW = .ok out ∧
      out.length = rawsW.length ∧
      ∀ i (h : i < rawsW.length),
        ((rawsW.get ⟨i, h⟩).state = "running" → fetchW (rawsW.get ⟨i, h⟩).id = none →
          out.get? i = some (buildInfo 0 (rawsW.get ⟨i, h⟩))) ∧
        ((rawsW.get ⟨i, h⟩).state = "running" →
          ∀ st, fetchW (rawsW.get ⟨i, h⟩).id = some st →
          out.get? i = some (withStats (buildInfo 0 (rawsW.get ⟨i, h⟩)) st)) ∧
        ((rawsW.get ⟨i, h⟩).state ≠ "running" →
          out.get? i = some (buildInfo 0 (rawsW.get ⟨i, h⟩))) ∧
        (buildInfo 0 (rawsW.get ⟨i, h⟩)).CPU = "-" ∧
        (buildInfo 0 (rawsW.get ⟨i, h⟩)).Memory = "-" ∧
        (buildInfo 0 (rawsW.get ⟨i, h⟩)).NetIo = "-") :=
  ⟨by decide, listContainers_fetch_failures_isolated 0 rawsW fetchW (by decide)⟩

end Dockit
